import Mathlib

/-!
Shallow embedding of the pipecat-copilot session orchestrator
(`src/services/pipecat-copilot/src/`): the resilience layer
(`utils.py`: `retry_with_backoff`, `CircuitBreaker`), the Exotel protocol
codec (`exotel_handler.py`), the pipeline lifecycle manager
(`pipeline.py`), the WebSocket session orchestrator
(`websocket_server.py`), the intent detector (`intent_detector.py`) and
the disposition generator (`disposition_generator.py`).

Python floats (delays, timestamps, confidences) are modelled as rationals;
Python dicts as association lists; asynchronous calls to external
capabilities (LLM providers, the pipeline, the frontend) as explicit
outcome parameters and emitted effect lists; raised exceptions as sum
types / `Option`.
-/

namespace AList

/-- `dict.get(k)` on an association list. -/
def lookupA {β : Type} (m : List (String × β)) (k : String) : Option β :=
  match m with
  | [] => none
  | (k1, v) :: rest => if k1 = k then some v else lookupA rest k

/-- `dict[k] = v`: replace in place if the key exists, else append. -/
def insertA {β : Type} (m : List (String × β)) (k : String) (v : β) :
    List (String × β) :=
  match m with
  | [] => [(k, v)]
  | (k1, v1) :: rest =>
    if k1 = k then (k1, v) :: rest else (k1, v1) :: insertA rest k v

/-- `if k in dict: del dict[k]` (a guarded delete, no-op when absent). -/
def eraseA {β : Type} (m : List (String × β)) (k : String) :
    List (String × β) :=
  match m with
  | [] => []
  | (k1, v1) :: rest => if k1 = k then rest else (k1, v1) :: eraseA rest k

end AList

namespace Resilience

/-- Breaker states, mirroring the string field
`self.state = "closed" | "open" | "half_open"` in `utils.py`. -/
inductive BState
| closed
| opened
| halfOpen
deriving DecidableEq, Repr

/-- `CircuitBreaker.__init__` fields (`utils.py` lines 113-124). -/
structure CircuitBreaker where
  failure_threshold : Nat
  recovery_timeout : ℚ
  failure_count : Nat
  last_failure_time : Option ℚ
  state : BState
deriving DecidableEq, Repr

/-- A freshly constructed breaker: `failure_count = 0`,
`last_failure_time = None`, `state = "closed"`. -/
def CircuitBreaker.fresh (threshold : Nat) (timeout : ℚ) : CircuitBreaker :=
  ⟨threshold, timeout, 0, none, BState.closed⟩

/-- Outcome of the wrapped asynchronous function: it either returns, or
raises an exception of the breaker's `expected_exception` type. -/
inductive FuncOutcome
| success
| failure
deriving DecidableEq, Repr

/-- Observable result of `CircuitBreaker.call`: rejected without invoking
the function (the `"service unavailable"` raise), the function's value
returned, or the function's exception re-raised. -/
inductive CallResult
| rejected
| succeeded
| failed
deriving DecidableEq, Repr

/-- Result of one `call`: the updated breaker, the observable result, and
whether the underlying function was invoked. -/
structure CallStep where
  cb : CircuitBreaker
  result : CallResult
  invoked : Bool
deriving DecidableEq, Repr

/-- The open-state gate at the top of `CircuitBreaker.call`
(`utils.py` lines 128-133): in `"open"`, when
`time.time() - (last_failure_time or 0) > recovery_timeout` transition to
`"half_open"` and let the call proceed, otherwise reject. -/
def CircuitBreaker.gate (cb : CircuitBreaker) (now : ℚ) : Option CircuitBreaker :=
  if cb.state = BState.opened then
    if now - (cb.last_failure_time.getD 0) > cb.recovery_timeout then
      some { cb with state := BState.halfOpen }
    else
      none
  else
    some cb

/-- `CircuitBreaker.call` (`utils.py` lines 126-152), at time `now`, with
the wrapped function's outcome `f`.  On success the count is reset only
from the `"half_open"` state; on an expected failure the count is
incremented, `last_failure_time` refreshed, and the breaker opened once
`failure_count >= failure_threshold`. -/
def CircuitBreaker.call (cb : CircuitBreaker) (now : ℚ) (f : FuncOutcome) : CallStep :=
  match cb.gate now with
  | none => ⟨cb, CallResult.rejected, false⟩
  | some cb1 =>
    match f with
    | FuncOutcome.success =>
      if cb1.state = BState.halfOpen then
        ⟨{ cb1 with state := BState.closed, failure_count := 0 },
          CallResult.succeeded, true⟩
      else
        ⟨cb1, CallResult.succeeded, true⟩
    | FuncOutcome.failure =>
      let cb2 : CircuitBreaker :=
        { cb1 with failure_count := cb1.failure_count + 1,
                   last_failure_time := some now }
      let cb3 : CircuitBreaker :=
        if cb2.failure_count ≥ cb2.failure_threshold then
          { cb2 with state := BState.opened }
        else
          cb2
      ⟨cb3, CallResult.failed, true⟩

/-- Iterate failing calls at the given sequence of timestamps. -/
def applyFailures (cb : CircuitBreaker) (times : List ℚ) : CircuitBreaker :=
  times.foldl (fun c t => (c.call t FuncOutcome.failure).cb) cb

/-- Fold a sequence of timed call outcomes through the breaker. -/
def runCalls (cb : CircuitBreaker) (calls : List (ℚ × FuncOutcome)) : CircuitBreaker :=
  calls.foldl (fun c p => (c.call p.1 p.2).cb) cb

/-- Outcome of one invocation of the operation wrapped by
`retry_with_backoff`: a value, an exception in `retryable_exceptions`, or
an exception outside it (which the `except` clause does not catch). -/
inductive AttemptOutcome (ε α : Type)
| ok (v : α)
| retryable (e : ε)
| nonRetryable (e : ε)
deriving DecidableEq, Repr

/-- Trace of one `retry_with_backoff` run: the surfaced result, how many
times the wrapped function was invoked, and the `asyncio.sleep` delays in
order. -/
structure RetryTrace (ε α : Type) where
  result : Except ε α
  calls : Nat
  delays : List ℚ
deriving Repr

/-- The retry loop of `retry_with_backoff` (`utils.py` lines 60-77), with
the wrapped function modelled as a map from attempt index to outcome.
`remaining` is `max_retries - attempt`; on a retryable failure with
retries left, sleep `delay` and continue with
`delay = min(delay * exponential_base, max_delay)`. -/
def retryAux {ε α : Type} (f : Nat → AttemptOutcome ε α) (attempt : Nat)
    (remaining : Nat) (delay max_delay base : ℚ) : RetryTrace ε α :=
  match f attempt with
  | AttemptOutcome.ok v => ⟨Except.ok v, attempt + 1, []⟩
  | AttemptOutcome.nonRetryable e => ⟨Except.error e, attempt + 1, []⟩
  | AttemptOutcome.retryable e =>
    match remaining with
    | 0 => ⟨Except.error e, attempt + 1, []⟩
    | r + 1 =>
      let rest := retryAux f (attempt + 1) r (min (delay * base) max_delay)
        max_delay base
      ⟨rest.result, rest.calls, delay :: rest.delays⟩

/-- `retry_with_backoff(func, max_retries, initial_delay, max_delay,
exponential_base, ...)` (`utils.py` lines 30-80). -/
def retry_with_backoff {ε α : Type} (f : Nat → AttemptOutcome ε α)
    (max_retries : Nat) (initial_delay max_delay base : ℚ) : RetryTrace ε α :=
  retryAux f 0 max_retries initial_delay max_delay base

/-- The sequence of sleep delays the loop generates: the first sleep is
`initial_delay` itself, each later one is
`min(previous * exponential_base, max_delay)`. -/
def backoffDelay (d M b : ℚ) : Nat → ℚ
| 0 => d
| i + 1 => min (backoffDelay d M b i * b) M

end Resilience

namespace Protocol

/-- `ExotelConnectionState` (`exotel_handler.py` lines 23-35); the unused
`custom_parameters` field is omitted. -/
structure ExotelConnectionState where
  stream_sid : String
  call_sid : String
  account_sid : String
  from_number : String
  to_number : String
  sample_rate : Nat
  encoding : String
  seq : Nat
  started : Bool
deriving DecidableEq, Repr

/-- `self.connections` of `ExotelHandler`. -/
abbrev HandlerConns := List (String × ExotelConnectionState)

/-- Python `str.isdigit` restricted to ASCII decimal strings: non-empty
and all characters in `0-9`.  (`"".isdigit()` is `False`.) -/
def pyIsDigit (s : String) : Bool := !s.isEmpty && s.data.all Char.isDigit

/-- Python `int(s)` on a digit string: fold the decimal digits. -/
def pyInt (s : String) : Nat :=
  s.data.foldl (fun acc c => acc * 10 + (c.toNat - Char.toNat '0')) 0

/-- Outcome of the sample-rate normalization: the stored rate and whether
the invalid-rate warning was logged. -/
structure RateResult where
  rate : Nat
  warned : Bool
deriving DecidableEq, Repr

/-- Sample-rate normalization in `_handle_start` (`exotel_handler.py`
lines 122-139): parse the string if it `isdigit` (else 8000), then warn
and default to 8000 when outside `[8000, 16000, 24000]`, and convert
24000 to 16000. -/
def normalize_sample_rate (sample_rate_str : String) : RateResult :=
  let sample_rate :=
    if pyIsDigit sample_rate_str then pyInt sample_rate_str
    else 8000
  if sample_rate ∉ [8000, 16000, 24000] then ⟨8000, true⟩
  else if sample_rate = 24000 then ⟨16000, false⟩
  else ⟨sample_rate, false⟩

/-- Fields of a `start` event after the `dict.get` defaults have been
applied; `sample_rate_field`/`encoding_field` are `None` when
`media_format` lacks them (defaults `"8000"` / `"pcm16"`). -/
structure StartMsg where
  stream_sid : String
  call_sid : String
  account_sid : String
  from_number : String
  to_number : String
  sample_rate_field : Option String
  encoding_field : Option String
deriving DecidableEq, Repr

/-- What `_handle_start` returns: the freshly built state plus whether the
sample-rate warning fired. -/
structure StartResult where
  state : ExotelConnectionState
  warned : Bool
deriving DecidableEq, Repr

/-- `ExotelHandler._handle_start` (`exotel_handler.py` lines 115-169):
builds a fresh `ExotelConnectionState` (with `seq = 0`, `started = True`)
and stores it under `stream_sid`, replacing any existing entry. -/
def handle_start (conns : HandlerConns) (msg : StartMsg) :
    StartResult × HandlerConns :=
  let rr := normalize_sample_rate (msg.sample_rate_field.getD "8000")
  let st : ExotelConnectionState :=
    { stream_sid := msg.stream_sid
      call_sid := msg.call_sid
      account_sid := msg.account_sid
      from_number := msg.from_number
      to_number := msg.to_number
      sample_rate := rr.rate
      encoding := msg.encoding_field.getD "pcm16"
      seq := 0
      started := true }
  (⟨st, rr.warned⟩, AList.insertA conns msg.stream_sid st)

/-- Value of a character in the base64 alphabet, or `none`. -/
def b64Val? (c : Char) : Option Nat :=
  if 'A' ≤ c ∧ c ≤ 'Z' then some (c.toNat - 'A'.toNat)
  else if 'a' ≤ c ∧ c ≤ 'z' then some (c.toNat - 'a'.toNat + 26)
  else if '0' ≤ c ∧ c ≤ '9' then some (c.toNat - '0'.toNat + 52)
  else if c = '+' then some 62
  else if c = '/' then some 63
  else none

/-- The payload validation regex `^[A-Za-z0-9+/]*={0,2}$` of
`_handle_media`: alphabet characters followed by at most two `=`. -/
def base64RegexMatch (payload : String) : Bool :=
  let body := payload.data.takeWhile (fun c => (b64Val? c).isSome)
  let rest := payload.data.drop body.length
  decide (rest.length ≤ 2) && rest.all (fun c => c == '=')

/-- Decode one base64 quantum of four characters; `=` padding is legal
only in the final quantum. -/
def decodeQuad (a b c d : Char) (lastQuad : Bool) : Option (List Nat) :=
  match b64Val? a, b64Val? b with
  | some va, some vb =>
    if c = '=' then
      if d = '=' ∧ lastQuad then some [va * 4 + vb / 16] else none
    else
      match b64Val? c with
      | some vc =>
        if d = '=' then
          if lastQuad then some [va * 4 + vb / 16, (vb % 16) * 16 + vc / 4]
          else none
        else
          match b64Val? d with
          | some vd =>
            some [va * 4 + vb / 16, (vb % 16) * 16 + vc / 4, (vc % 4) * 64 + vd]
          | none => none
      | none => none
  | _, _ => none

/-- Decode a base64 character stream four characters at a time; fails
(like `base64.b64decode`) when the length is not a multiple of four. -/
def decodeQuads : List Char → Option (List Nat)
| [] => some []
| a :: b :: c :: d :: rest =>
  match decodeQuad a b c d rest.isEmpty with
  | some bytes =>
    match decodeQuads rest with
    | some more => some (bytes ++ more)
    | none => none
  | none => none
| _ => none

/-- `base64.b64decode` on an already regex-validated payload. -/
def b64decode? (payload : String) : Option (List Nat) :=
  decodeQuads payload.data

/-- Fields of a `media` event; `payload` is `None` when missing or not a
string. -/
structure MediaMsg where
  stream_sid : String
  payload : Option String
deriving DecidableEq, Repr

/-- What `_handle_media` returns on acceptance. -/
structure MediaResult where
  stream_sid : String
  state : ExotelConnectionState
  audio_bytes : List Nat
deriving DecidableEq, Repr

/-- `ExotelHandler._handle_media` (`exotel_handler.py` lines 171-222):
`None` (a dropped frame with a log line) when the stream is unknown or
not started, the payload is missing/empty, the regex fails, or the decode
raises; otherwise increments `seq` and returns the decoded bytes. -/
def handle_media (conns : HandlerConns) (msg : MediaMsg) :
    Option MediaResult × HandlerConns :=
  match AList.lookupA conns msg.stream_sid with
  | none => (none, conns)
  | some st =>
    if !st.started then (none, conns)
    else
      match msg.payload with
      | none => (none, conns)
      | some p =>
        if p.isEmpty then (none, conns)
        else if !base64RegexMatch p then (none, conns)
        else
          match b64decode? p with
          | none => (none, conns)
          | some bytes =>
            let st1 := { st with seq := st.seq + 1 }
            (some ⟨msg.stream_sid, st1, bytes⟩,
              AList.insertA conns msg.stream_sid st1)

/-- What `_handle_stop` returns: the event's stream id, the connection
state if one was registered (with `started` cleared), and the reason. -/
structure StopResult where
  stream_sid : String
  state : Option ExotelConnectionState
  reason : String
deriving DecidableEq, Repr

/-- `ExotelHandler._handle_stop` (`exotel_handler.py` lines 224-250):
clears `started` on a registered state (warning on an unknown stream) and
always returns a stop event. -/
def handle_stop (conns : HandlerConns) (stream_sid reason : String) :
    StopResult × HandlerConns :=
  match AList.lookupA conns stream_sid with
  | some st =>
    let st1 := { st with started := false }
    (⟨stream_sid, some st1, reason⟩, AList.insertA conns stream_sid st1)
  | none => (⟨stream_sid, none, reason⟩, conns)

/-- `ExotelHandler.remove_connection` (`exotel_handler.py` lines
256-260). -/
def remove_connection (conns : HandlerConns) (stream_sid : String) :
    HandlerConns :=
  AList.eraseA conns stream_sid

end Protocol

namespace Pipeline

/-- The three per-stream dicts of `PipecatPipeline`
(`pipeline.py` lines 237-242); pipeline / runner objects are external
capabilities, so only key presence is modelled, plus the audio
processor's `is_running` flag. -/
structure PipelineManager where
  pipelines : List String
  runners : List String
  audio_processors : List (String × Bool)
deriving DecidableEq, Repr

/-- The empty manager. -/
def PipelineManager.empty : PipelineManager := ⟨[], [], []⟩

/-- Outcome of `create_pipeline`: the updated manager and whether a new
pipeline was actually built (`False` for the already-exists warning
no-op). -/
structure CreateOutcome where
  manager : PipelineManager
  created : Bool
deriving DecidableEq, Repr

/-- `PipecatPipeline.create_pipeline` (`pipeline.py` lines 254-321): an
early-return no-op with a warning when `stream_sid in self.pipelines`,
otherwise registers pipeline, runner, and a started audio processor. -/
def create_pipeline (pm : PipelineManager) (stream_sid : String) :
    CreateOutcome :=
  if pm.pipelines.contains stream_sid then ⟨pm, false⟩
  else
    ⟨⟨pm.pipelines ++ [stream_sid], pm.runners ++ [stream_sid],
      pm.audio_processors ++ [(stream_sid, true)]⟩, true⟩

/-- `PipecatPipeline.stop_pipeline` (`pipeline.py` lines 347-369):
tolerant deletes of the stream's entries from all three dicts. -/
def stop_pipeline (pm : PipelineManager) (stream_sid : String) :
    PipelineManager :=
  ⟨pm.pipelines.erase stream_sid, pm.runners.erase stream_sid,
    AList.eraseA pm.audio_processors stream_sid⟩

end Pipeline

namespace Py

/-- Python `str.strip()` (whitespace on both ends), modelled on the
character list so it evaluates. -/
def pyStrip (s : String) : String :=
  String.mk (((s.data.dropWhile Char.isWhitespace).reverse.dropWhile
    Char.isWhitespace).reverse)

/-- Python `str.lower()`. -/
def pyLower (s : String) : String := String.mk (s.data.map Char.toLower)

/-- Python `str.replace(" ", "_")` (single-character pattern and
replacement, so a per-character map). -/
def pyUnderscoreSpaces (s : String) : String :=
  String.mk (s.data.map (fun c => if c = ' ' then '_' else c))

end Py

namespace Intent

/-- `IntentResult` (`intent_detector.py` lines 15-23). -/
structure IntentResult where
  intent : String
  confidence : ℚ
deriving DecidableEq, Repr

/-- `IntentDetector._normalize_intent` (`intent_detector.py` lines
100-114). -/
def normalize_intent (intent : String) : String :=
  let normalized := Py.pyUnderscoreSpaces (Py.pyStrip (Py.pyLower intent))
  if normalized = "creditcard" then "credit_card"
  else if normalized = "debitcard" then "debit_card"
  else if normalized = "credit_card_blocking" then "credit_card_block"
  else if normalized = "debit_card_blocking" then "debit_card_block"
  else if normalized = "card_block" then "credit_card_block"
  else normalized

/-- The `intent`/`confidence` fields of a successfully JSON-parsed
provider response (each `None` when absent). -/
structure ParsedIntentResponse where
  intent : Option String
  confidence : Option ℚ
deriving DecidableEq, Repr

/-- Outcome of the provider call plus response parsing inside
`detect_intent`'s `try`: the provider (or the `float(...)` coercion)
raised, the text was not JSON, or the parse succeeded. -/
inductive IntentLLMOutcome
| raisedError
| invalidJson
| parsed (r : ParsedIntentResponse)
deriving DecidableEq, Repr

/-- `IntentDetector.detect_intent` (`intent_detector.py` lines 116-166):
short text short-circuits to `("unknown", 0.0)`; provider errors and
non-JSON responses are caught and give `("unknown", 0.0)`; a parsed
response is normalized with the confidence clamped into `[0, 1]`. -/
def detect_intent (text : String) (llm : IntentLLMOutcome) : IntentResult :=
  if (Py.pyStrip text).length < 10 then ⟨"unknown", 0⟩
  else
    match llm with
    | IntentLLMOutcome.raisedError => ⟨"unknown", 0⟩
    | IntentLLMOutcome.invalidJson => ⟨"unknown", 0⟩
    | IntentLLMOutcome.parsed r =>
      ⟨normalize_intent (r.intent.getD "unknown"),
        max 0 (min 1 (r.confidence.getD 0))⟩

end Intent

namespace Disposition

/-- `DispositionRecommendation` (`disposition_generator.py` lines
14-32). -/
structure DispositionRecommendation where
  label : String
  score : ℚ
  sub_disposition : Option String
deriving DecidableEq, Repr

/-- `DispositionSummary` (`disposition_generator.py` lines 35-65). -/
structure DispositionSummary where
  issue : String
  resolution : String
  next_steps : String
  dispositions : List DispositionRecommendation
  confidence : ℚ
deriving DecidableEq, Repr

/-- `DispositionGenerator._create_fallback_summary`
(`disposition_generator.py` lines 261-272). -/
def fallback_summary : DispositionSummary :=
  ⟨"Unable to analyze transcript.",
    "Please review the call transcript manually.",
    "Review call details and assign appropriate disposition.",
    [⟨"general_inquiry", 1/10, none⟩],
    1/10⟩

/-- One element of the parsed `dispositions` array (fields `None` when
absent). -/
structure ParsedDisposition where
  label : Option String
  score : Option ℚ
  sub_disposition : Option String
deriving DecidableEq, Repr

/-- A successfully JSON-parsed provider response. -/
structure ParsedResponse where
  issue : Option String
  resolution : Option String
  next_steps : Option String
  dispositions : List ParsedDisposition
  confidence : Option ℚ
deriving DecidableEq, Repr

/-- Outcome of the provider call plus parsing inside
`generate_disposition`'s `try`: the provider (or a `float(...)` coercion)
raised, the text was not JSON, or the parse succeeded. -/
inductive LLMOutcome
| raisedError
| invalidJson
| parsed (r : ParsedResponse)
deriving DecidableEq, Repr

/-- Result of `generate_disposition` plus whether the LLM provider was
invoked at all. -/
structure GenResult where
  summary : DispositionSummary
  llm_invoked : Bool
deriving DecidableEq, Repr

/-- `DispositionGenerator.generate_disposition`
(`disposition_generator.py` lines 133-207): empty or `< 10`-character
(after `strip`) transcripts return the fallback without calling the
provider; provider failures and unparseable responses return the
fallback; otherwise the parsed fields are assembled with their defaults,
with `general_inquiry`/0.5 when the dispositions list is empty. -/
def generate_disposition (transcript : String) (llm : LLMOutcome) : GenResult :=
  if transcript.isEmpty || (Py.pyStrip transcript).length < 10 then
    ⟨fallback_summary, false⟩
  else
    match llm with
    | LLMOutcome.raisedError => ⟨fallback_summary, true⟩
    | LLMOutcome.invalidJson => ⟨fallback_summary, true⟩
    | LLMOutcome.parsed r =>
      let ds := r.dispositions.map (fun d =>
        DispositionRecommendation.mk (d.label.getD "unknown")
          (d.score.getD (1/2)) d.sub_disposition)
      let ds1 := if ds.isEmpty then [⟨"general_inquiry", 1/2, none⟩] else ds
      ⟨⟨r.issue.getD "Issue not identified.",
        r.resolution.getD "Resolution not specified.",
        r.next_steps.getD "No next steps specified.",
        ds1,
        r.confidence.getD (1/2)⟩, true⟩

end Disposition

namespace Orchestrator

/-- The per-connection `CopilotTranscriptCallback` state
(`websocket_server.py` lines 20-39). -/
structure CallbackState where
  stream_sid : String
  call_sid : String
  tenant_id : String
  transcript_chunks : List String
  seq : Nat
deriving DecidableEq, Repr

/-- One value of `WebSocketServer.connections`
(`websocket_server.py` lines 206-210). -/
structure ConnectionInfo where
  state : Protocol.ExotelConnectionState
  callback : CallbackState
  correlation_id : String
deriving DecidableEq, Repr

/-- The orchestrator's mutable state: the codec's connection registry,
the server's connection registry, and the pipeline manager. -/
structure ServerState where
  handler : Protocol.HandlerConns
  connections : List (String × ConnectionInfo)
  pipelines : Pipeline.PipelineManager
deriving DecidableEq, Repr

/-- Calls the orchestrator makes into external capabilities while
processing one event. -/
inductive Effect
| createPipeline (stream_sid call_sid : String) (sample_rate : Nat)
| processAudio (stream_sid : String) (audio : List Nat)
| stopPipeline (stream_sid : String)
| generateDisposition (call_id transcript : String)
| sendDisposition (call_id : String) (summary : Disposition.DispositionSummary)
deriving DecidableEq, Repr

/-- `CopilotTranscriptCallback.get_full_transcript`
(`websocket_server.py` lines 128-130). -/
def get_full_transcript (chunks : List String) : String :=
  String.intercalate " " chunks

/-- The `start` branch of `WebSocketServer.handle_websocket`
(`websocket_server.py` lines 177-214): run the codec, build a fresh
callback (`tenant_id = account_sid or "default"`), call
`create_pipeline`, and overwrite the connection entry. -/
def process_start_event (S : ServerState) (msg : Protocol.StartMsg)
    (corr : String) : ServerState × List Effect :=
  let (res, conns1) := Protocol.handle_start S.handler msg
  let st := res.state
  let cb : CallbackState :=
    ⟨st.stream_sid, st.call_sid,
      (if st.account_sid.isEmpty then "default" else st.account_sid), [], 0⟩
  let co := Pipeline.create_pipeline S.pipelines st.stream_sid
  ({ handler := conns1,
     connections := AList.insertA S.connections st.stream_sid ⟨st, cb, corr⟩,
     pipelines := co.manager },
   if co.created then [Effect.createPipeline st.stream_sid st.call_sid st.sample_rate]
   else [])

/-- The `media` branch of `WebSocketServer.handle_websocket`
(`websocket_server.py` lines 216-232): a `None` codec result is skipped
(`continue`); otherwise `pipeline.process_audio` is called when the
decoded bytes are non-empty (`if audio_bytes and state`). -/
def process_media_event (S : ServerState) (msg : Protocol.MediaMsg) :
    ServerState × List Effect :=
  let (ev, conns1) := Protocol.handle_media S.handler msg
  let S1 := { S with handler := conns1 }
  match ev with
  | none => (S1, [])
  | some r =>
    if r.audio_bytes.isEmpty then (S1, [])
    else (S1, [Effect.processAudio r.stream_sid r.audio_bytes])

/-- The `stop` branch of `WebSocketServer.handle_websocket`
(`websocket_server.py` lines 234-286): run the codec; resolve the stream
id from the returned state, falling back to `current_stream_sid`; when
that id is truthy and registered, stop the pipeline, generate and forward
a disposition when the joined transcript is non-empty, and remove the
connection from both registries. -/
def process_stop_event (S : ServerState) (current_stream_sid : Option String)
    (stream_sid reason : String) (llm : Disposition.LLMOutcome) :
    ServerState × List Effect :=
  let (sr, conns1) := Protocol.handle_stop S.handler stream_sid reason
  let sid? : Option String :=
    match sr.state with
    | some st => some st.stream_sid
    | none => current_stream_sid
  match sid? with
  | none => ({ S with handler := conns1 }, [])
  | some sid =>
    if sid.isEmpty then ({ S with handler := conns1 }, [])
    else
      match AList.lookupA S.connections sid with
      | none => ({ S with handler := conns1 }, [])
      | some conn =>
        let pm1 := Pipeline.stop_pipeline S.pipelines sid
        let call_id :=
          match sr.state with
          | some st => st.call_sid
          | none => sid
        let full := get_full_transcript conn.callback.transcript_chunks
        let effs :=
          if full.isEmpty then [Effect.stopPipeline sid]
          else
            let g := Disposition.generate_disposition full llm
            [Effect.stopPipeline sid,
              Effect.generateDisposition call_id full,
              Effect.sendDisposition call_id g.summary]
        ({ handler := Protocol.remove_connection conns1 sid,
           connections := AList.eraseA S.connections sid,
           pipelines := pm1 }, effs)

end Orchestrator

/-! ### Circuit breaker lemmas and claims -/

namespace Resilience

lemma call_closed_failure (cb : CircuitBreaker) (t : ℚ)
    (h : cb.state = BState.closed) :
    (cb.call t FuncOutcome.failure).cb =
      (if cb.failure_count + 1 ≥ cb.failure_threshold then
        { cb with failure_count := cb.failure_count + 1,
                  last_failure_time := some t, state := BState.opened }
      else
        { cb with failure_count := cb.failure_count + 1,
                  last_failure_time := some t }) := by
  simp only [CircuitBreaker.call, CircuitBreaker.gate, h]
  split <;> simp_all

lemma applyFailures_closed (ts : List ℚ) :
    ∀ cb : CircuitBreaker, cb.state = BState.closed →
    cb.failure_count + ts.length < cb.failure_threshold →
    (applyFailures cb ts).state = BState.closed ∧
    (applyFailures cb ts).failure_count = cb.failure_count + ts.length ∧
    (applyFailures cb ts).failure_threshold = cb.failure_threshold ∧
    (applyFailures cb ts).recovery_timeout = cb.recovery_timeout := by
  induction ts with
  | nil =>
    intro cb h _
    exact ⟨h, by simp [applyFailures], rfl, rfl⟩
  | cons t ts ih =>
    intro cb h hlt
    have hstep := call_closed_failure cb t h
    have hnot : ¬ cb.failure_count + 1 ≥ cb.failure_threshold := by
      simp only [List.length_cons] at hlt
      omega
    rw [if_neg hnot] at hstep
    have happ : applyFailures cb (t :: ts) =
        applyFailures (cb.call t FuncOutcome.failure).cb ts := by
      simp [applyFailures]
    rw [happ, hstep]
    obtain ⟨h1, h2, h3, h4⟩ :=
      ih { cb with failure_count := cb.failure_count + 1,
                   last_failure_time := some t }
        (by simp [h])
        (by simp only [List.length_cons] at hlt; simpa using by omega)
    refine ⟨h1, ?_, h3, h4⟩
    rw [h2]
    simp only [List.length_cons]
    omega

lemma applyFailures_opens (cb : CircuitBreaker) (init : List ℚ) (t : ℚ)
    (h : cb.state = BState.closed)
    (hlen : cb.failure_count + init.length + 1 = cb.failure_threshold) :
    (applyFailures cb (init ++ [t])).state = BState.opened := by
  obtain ⟨h1, h2, h3, _⟩ := applyFailures_closed init cb h (by omega)
  have happ : applyFailures cb (init ++ [t]) =
      ((applyFailures cb init).call t FuncOutcome.failure).cb := by
    simp [applyFailures, List.foldl_append]
  rw [happ, call_closed_failure _ _ h1]
  rw [if_pos (by rw [h2, h3]; omega)]

/-- C1: starting from a fresh (closed) breaker, strictly fewer than
`failure_threshold` consecutive failing calls leave it closed and exactly
`failure_threshold` of them open it; while open, a call attempted no more
than `recovery_timeout` after `last_failure_time` is rejected with the
service-unavailable failure without invoking the wrapped function and
without changing the breaker; a call attempted after `recovery_timeout`
has elapsed passes the gate into half-open and is let through, and when
it succeeds the breaker becomes closed with `failure_count = 0`. -/
theorem circuit_breaker_open_cycle
    (T : Nat) (hT : 1 ≤ T) (rt : ℚ) (ts : List ℚ) (hts : ts.length = T) :
    (∀ pre : List ℚ, pre.length < T →
      (applyFailures (CircuitBreaker.fresh T rt) pre).state = BState.closed) ∧
    (applyFailures (CircuitBreaker.fresh T rt) ts).state = BState.opened ∧
    (∀ (cb : CircuitBreaker) (L now : ℚ) (f : FuncOutcome),
      cb.state = BState.opened → cb.last_failure_time = some L →
      ¬ now - L > cb.recovery_timeout →
      cb.call now f = ⟨cb, CallResult.rejected, false⟩) ∧
    (∀ (cb : CircuitBreaker) (L now : ℚ),
      cb.state = BState.opened → cb.last_failure_time = some L →
      now - L > cb.recovery_timeout →
      cb.gate now = some { cb with state := BState.halfOpen } ∧
      (cb.call now FuncOutcome.success).invoked = true ∧
      (cb.call now FuncOutcome.success).result = CallResult.succeeded ∧
      (cb.call now FuncOutcome.success).cb.state = BState.closed ∧
      (cb.call now FuncOutcome.success).cb.failure_count = 0) := by
  refine ⟨?_, ?_, ?_, ?_⟩
  · intro pre hpre
    exact (applyFailures_closed pre (CircuitBreaker.fresh T rt) rfl
      (by simpa [CircuitBreaker.fresh] using hpre)).1
  · have hne : ts ≠ [] := by
      intro hnil
      rw [hnil] at hts
      simp at hts
      omega
    rcases List.eq_nil_or_concat' ts with hnil | ⟨init, t, rfl⟩
    · exact absurd hnil hne
    exact applyFailures_opens (CircuitBreaker.fresh T rt) init t rfl
      (by
        simp only [CircuitBreaker.fresh]
        have : init.length + 1 = T := by
          simpa [List.length_append] using hts
        omega)
  · intro cb L now f hst hlast hto
    simp [CircuitBreaker.call, CircuitBreaker.gate, hst, hlast, hto]
  · intro cb L now hst hlast hto
    refine ⟨?_, ?_, ?_, ?_, ?_⟩ <;>
      simp [CircuitBreaker.call, CircuitBreaker.gate, hst, hlast, hto]

/-- Witness for C1 at `failure_threshold = 2`, `recovery_timeout = 60`,
failures at times 0 and 1. -/
theorem circuit_breaker_open_cycle_witness :
    (applyFailures (CircuitBreaker.fresh 2 60) [0, 1]).state = BState.opened :=
  (circuit_breaker_open_cycle 2 (by decide) 60 [0, 1] rfl).2.1

end Resilience

namespace Resilience

/-- C2 counterexample: a success while `closed` does NOT reset the
failure count (`utils.py` resets it only from `half_open`, lines
137-139): with threshold 5, a closed breaker holding one failure still
holds it after a success; and with threshold 2, the sequence
failure-success-failure still opens the breaker, so interleaved successes
do not stop the counter accumulating. -/
theorem success_in_closed_keeps_failure_count :
    ((⟨5, 60, 1, some 0, BState.closed⟩ : CircuitBreaker).call 1
        FuncOutcome.success).cb.failure_count = 1 ∧
    ¬ ((⟨5, 60, 1, some 0, BState.closed⟩ : CircuitBreaker).call 1
        FuncOutcome.success).cb.failure_count = 0 ∧
    (runCalls (CircuitBreaker.fresh 2 60)
      [(0, FuncOutcome.failure), (1, FuncOutcome.success),
        (2, FuncOutcome.failure)]).state = BState.opened := by
  refine ⟨?_, ?_, ?_⟩ <;> decide

/-- C2 amended: a successful call resets `failure_count` to 0 only when
it goes through in the `half_open` state; a success in the `closed` state
returns the breaker completely unchanged, so failures separated by
successes still accumulate toward the threshold. -/
theorem success_resets_only_half_open :
    (∀ (cb : CircuitBreaker) (now : ℚ), cb.state = BState.closed →
      (cb.call now FuncOutcome.success).cb = cb ∧
      (cb.call now FuncOutcome.success).result = CallResult.succeeded) ∧
    (∀ (cb : CircuitBreaker) (now : ℚ), cb.state = BState.halfOpen →
      (cb.call now FuncOutcome.success).cb.failure_count = 0 ∧
      (cb.call now FuncOutcome.success).cb.state = BState.closed) := by
  constructor
  · intro cb now h
    constructor <;> simp [CircuitBreaker.call, CircuitBreaker.gate, h]
  · intro cb now h
    constructor <;> simp [CircuitBreaker.call, CircuitBreaker.gate, h]

/-- Witness for the amended C2 at a concrete closed breaker and a
concrete half-open breaker. -/
theorem success_resets_only_half_open_witness :
    ((⟨5, 60, 1, some 0, BState.closed⟩ : CircuitBreaker).call 7
        FuncOutcome.success).cb = ⟨5, 60, 1, some 0, BState.closed⟩ ∧
    ((⟨5, 60, 3, some 0, BState.halfOpen⟩ : CircuitBreaker).call 7
        FuncOutcome.success).cb.failure_count = 0 :=
  ⟨(success_resets_only_half_open.1 ⟨5, 60, 1, some 0, BState.closed⟩ 7 rfl).1,
    (success_resets_only_half_open.2 ⟨5, 60, 3, some 0, BState.halfOpen⟩ 7 rfl).1⟩

end Resilience

/-! ### Retry-with-backoff lemmas and claims -/

namespace Resilience

lemma retryAux_ok_eq {ε α : Type} {f : Nat → AttemptOutcome ε α}
    {attempt : Nat} {v : α} (remaining : Nat) (d M b : ℚ)
    (he : f attempt = AttemptOutcome.ok v) :
    retryAux f attempt remaining d M b = ⟨Except.ok v, attempt + 1, []⟩ := by
  conv_lhs => rw [retryAux.eq_def]
  rw [he]

lemma retryAux_nonretryable_eq {ε α : Type} {f : Nat → AttemptOutcome ε α}
    {attempt : Nat} {e : ε} (remaining : Nat) (d M b : ℚ)
    (he : f attempt = AttemptOutcome.nonRetryable e) :
    retryAux f attempt remaining d M b = ⟨Except.error e, attempt + 1, []⟩ := by
  conv_lhs => rw [retryAux.eq_def]
  rw [he]

lemma retryAux_zero_retryable_eq {ε α : Type} {f : Nat → AttemptOutcome ε α}
    {attempt : Nat} {e : ε} (d M b : ℚ)
    (he : f attempt = AttemptOutcome.retryable e) :
    retryAux f attempt 0 d M b = ⟨Except.error e, attempt + 1, []⟩ := by
  conv_lhs => rw [retryAux.eq_def]
  rw [he]

lemma retryAux_succ_retryable_eq {ε α : Type} {f : Nat → AttemptOutcome ε α}
    {attempt : Nat} {e : ε} (r : Nat) (d M b : ℚ)
    (he : f attempt = AttemptOutcome.retryable e) :
    retryAux f attempt (r + 1) d M b =
      ⟨(retryAux f (attempt + 1) r (min (d * b) M) M b).result,
        (retryAux f (attempt + 1) r (min (d * b) M) M b).calls,
        d :: (retryAux f (attempt + 1) r (min (d * b) M) M b).delays⟩ := by
  conv_lhs => rw [retryAux.eq_def]
  rw [he]

lemma backoffDelay_shift (d M b : ℚ) (i : Nat) :
    backoffDelay (min (d * b) M) M b i = backoffDelay d M b (i + 1) := by
  induction i with
  | zero => rfl
  | succ i ih => simp only [backoffDelay, ih]

lemma backoffDelay_closed_form (d M b : ℚ) (hd : 0 ≤ d) (hb : 0 ≤ b)
    (hdM : d ≤ M) : ∀ i : Nat, backoffDelay d M b i = min (d * b ^ i) M := by
  intro i
  induction i with
  | zero => simp [backoffDelay, min_eq_left hdM]
  | succ i ih =>
    simp only [backoffDelay, ih]
    by_cases hcap : d * b ^ i ≤ M
    · rw [min_eq_left hcap, pow_succ, ← mul_assoc]
    · push_neg at hcap
      rw [min_eq_right (le_of_lt hcap)]
      have hd0 : 0 < d := by
        rcases lt_or_eq_of_le hd with h0 | h0
        · exact h0
        · exfalso
          have : d * b ^ i = 0 := by rw [← h0, zero_mul]
          rw [this] at hcap
          exact absurd (le_trans hd hdM) (not_le.mpr hcap)
      have hb1 : 1 < b := by
        by_contra hble
        push_neg at hble
        have hpow : b ^ i ≤ 1 := pow_le_one₀ hb hble
        have hmul : d * b ^ i ≤ d * 1 := mul_le_mul_of_nonneg_left hpow hd
        rw [mul_one] at hmul
        exact absurd (lt_of_le_of_lt (le_trans hmul hdM) hcap) (lt_irrefl _)
      have hM0 : 0 < M := lt_of_lt_of_le hd0 hdM
      have hMb : M ≤ M * b := le_mul_of_one_le_right (le_of_lt hM0) (le_of_lt hb1)
      rw [min_eq_right hMb]
      have hbig : M ≤ d * b ^ (i + 1) := by
        have h1 : M * b ≤ (d * b ^ i) * b :=
          mul_le_mul_of_nonneg_right (le_of_lt hcap)
            (le_of_lt (lt_trans one_pos hb1))
        calc M ≤ M * b := hMb
          _ ≤ (d * b ^ i) * b := h1
          _ = d * b ^ (i + 1) := by rw [pow_succ, mul_assoc]
      rw [min_eq_right hbig]

lemma retryAux_delays {ε α : Type} (f : Nat → AttemptOutcome ε α) (M b : ℚ) :
    ∀ (remaining attempt : Nat) (d : ℚ),
    (retryAux f attempt remaining d M b).delays =
      (List.range (retryAux f attempt remaining d M b).delays.length).map
        (backoffDelay d M b) := by
  intro remaining
  induction remaining with
  | zero =>
    intro attempt d
    cases hf : f attempt with
    | ok v => rw [retryAux_ok_eq 0 d M b hf]; rfl
    | nonRetryable e => rw [retryAux_nonretryable_eq 0 d M b hf]; rfl
    | retryable e => rw [retryAux_zero_retryable_eq d M b hf]; rfl
  | succ r ih =>
    intro attempt d
    cases hf : f attempt with
    | ok v => rw [retryAux_ok_eq (r + 1) d M b hf]; rfl
    | nonRetryable e => rw [retryAux_nonretryable_eq (r + 1) d M b hf]; rfl
    | retryable e =>
      rw [retryAux_succ_retryable_eq r d M b hf]
      have hr := ih (attempt + 1) (min (d * b) M)
      simp only [List.length_cons, List.range_succ_eq_map, List.map_cons]
      refine congrArg₂ List.cons rfl ?_
      conv_lhs => rw [hr]
      rw [List.map_map]
      refine List.map_congr_left ?_
      intro i _
      simp only [Function.comp_apply]
      exact backoffDelay_shift d M b i

lemma retryAux_success {ε α : Type} (f : Nat → AttemptOutcome ε α)
    (M b : ℚ) (v : α) :
    ∀ (k attempt remaining : Nat) (d : ℚ), k ≤ remaining →
    (∀ i, i < k → ∃ e, f (attempt + i) = AttemptOutcome.retryable e) →
    f (attempt + k) = AttemptOutcome.ok v →
    (retryAux f attempt remaining d M b).result = Except.ok v ∧
    (retryAux f attempt remaining d M b).calls = attempt + k + 1 ∧
    (retryAux f attempt remaining d M b).delays.length = k := by
  intro k
  induction k with
  | zero =>
    intro attempt remaining d _ _ hok
    rw [Nat.add_zero] at hok
    rw [retryAux_ok_eq remaining d M b hok]
    exact ⟨rfl, rfl, rfl⟩
  | succ k ih =>
    intro attempt remaining d hle hretry hok
    obtain ⟨e, he⟩ := hretry 0 (Nat.succ_pos k)
    rw [Nat.add_zero] at he
    cases remaining with
    | zero => omega
    | succ r =>
      obtain ⟨h1, h2, h3⟩ := ih (attempt + 1) r (min (d * b) M) (by omega)
        (fun i hi => by
          obtain ⟨e2, he2⟩ := hretry (i + 1) (by omega)
          exact ⟨e2, by rw [show attempt + 1 + i = attempt + (i + 1) by omega]
                        exact he2⟩)
        (by rw [show attempt + 1 + k = attempt + (k + 1) by omega]; exact hok)
      rw [retryAux_succ_retryable_eq r d M b he]
      refine ⟨h1, ?_, ?_⟩
      · simpa using by omega
      · simp [h3]

lemma retryAux_exhaust {ε α : Type} (f : Nat → AttemptOutcome ε α)
    (M b : ℚ) (err : Nat → ε) :
    ∀ (remaining attempt : Nat) (d : ℚ),
    (∀ i, i ≤ remaining →
      f (attempt + i) = AttemptOutcome.retryable (err (attempt + i))) →
    (retryAux f attempt remaining d M b).result =
      Except.error (err (attempt + remaining)) ∧
    (retryAux f attempt remaining d M b).calls = attempt + remaining + 1 ∧
    (retryAux f attempt remaining d M b).delays.length = remaining := by
  intro remaining
  induction remaining with
  | zero =>
    intro attempt d herr
    have h0 := herr 0 (le_refl 0)
    rw [Nat.add_zero] at h0
    rw [retryAux_zero_retryable_eq d M b h0]
    exact ⟨rfl, rfl, rfl⟩
  | succ r ih =>
    intro attempt d herr
    have h0 := herr 0 (Nat.zero_le _)
    rw [Nat.add_zero] at h0
    obtain ⟨h1, h2, h3⟩ := ih (attempt + 1) (min (d * b) M)
      (fun i hi => by
        have hh := herr (i + 1) (by omega)
        rw [show attempt + 1 + i = attempt + (i + 1) by omega]
        exact hh)
    rw [retryAux_succ_retryable_eq r d M b h0]
    refine ⟨?_, ?_, ?_⟩
    · simp only [h1]
      have harith : attempt + 1 + r = attempt + (r + 1) := by omega
      rw [harith]
    · simp only [h2]
      omega
    · simp [h3]

lemma retryAux_nonretryable {ε α : Type} (f : Nat → AttemptOutcome ε α)
    (M b : ℚ) (e0 : ε) :
    ∀ (j attempt remaining : Nat) (d : ℚ), j ≤ remaining →
    (∀ i, i < j → ∃ e, f (attempt + i) = AttemptOutcome.retryable e) →
    f (attempt + j) = AttemptOutcome.nonRetryable e0 →
    (retryAux f attempt remaining d M b).result = Except.error e0 ∧
    (retryAux f attempt remaining d M b).calls = attempt + j + 1 ∧
    (retryAux f attempt remaining d M b).delays.length = j := by
  intro j
  induction j with
  | zero =>
    intro attempt remaining d _ _ hnr
    rw [Nat.add_zero] at hnr
    rw [retryAux_nonretryable_eq remaining d M b hnr]
    exact ⟨rfl, rfl, rfl⟩
  | succ j ih =>
    intro attempt remaining d hle hretry hnr
    obtain ⟨e, he⟩ := hretry 0 (Nat.succ_pos j)
    rw [Nat.add_zero] at he
    cases remaining with
    | zero => omega
    | succ r =>
      obtain ⟨h1, h2, h3⟩ := ih (attempt + 1) r (min (d * b) M) (by omega)
        (fun i hi => by
          obtain ⟨e2, he2⟩ := hretry (i + 1) (by omega)
          exact ⟨e2, by rw [show attempt + 1 + i = attempt + (i + 1) by omega]
                        exact he2⟩)
        (by rw [show attempt + 1 + j = attempt + (j + 1) by omega]; exact hnr)
      rw [retryAux_succ_retryable_eq r d M b he]
      refine ⟨h1, ?_, ?_⟩
      · simpa using by omega
      · simp [h3]

end Resilience

namespace Resilience

/-- C3 counterexample: with `initial_delay = 100 > max_delay = 60` and
`exponential_base = 2`, a function failing retryably once then succeeding
sleeps exactly `[100]`: the first sleep is the raw `initial_delay`, not
`min(initial_delay * base^0, max_delay) = 60` as the claim's "capped ...
for every i, including the first" requires (`utils.py` sleeps `delay`
before applying the cap, lines 76-77). -/
theorem retry_first_delay_uncapped_counterexample :
    (retry_with_backoff
      (fun n => if n = 0 then AttemptOutcome.retryable ()
        else AttemptOutcome.ok ())
      2 100 60 2).delays = [(100 : ℚ)] ∧
    [(100 : ℚ)] ≠ [min ((100 : ℚ) * 2 ^ 0) 60] := by
  constructor
  · decide
  · norm_num

/-- C3 (amended): for `k < max_retries`, a function failing retryably
exactly `k` times then succeeding is called exactly `k + 1` times with
its value returned and `k` sleeps; provided
`0 ≤ initial_delay ≤ max_delay` and `0 ≤ exponential_base`, every sleep
delay (the first included) equals
`min(initial_delay * base^i, max_delay)`; when all `max_retries + 1`
attempts fail retryably the last attempt's error is surfaced; and a
non-retryable failure at attempt `j` surfaces immediately after `j + 1`
calls. -/
theorem retry_with_backoff_contract {ε α : Type}
    (f : Nat → AttemptOutcome ε α) (max_retries : Nat) (d M b : ℚ)
    (hd : 0 ≤ d) (hb : 0 ≤ b) (hdM : d ≤ M) :
    (∀ (k : Nat) (v : α), k < max_retries →
      (∀ i, i < k → ∃ e, f i = AttemptOutcome.retryable e) →
      f k = AttemptOutcome.ok v →
      (retry_with_backoff f max_retries d M b).result = Except.ok v ∧
      (retry_with_backoff f max_retries d M b).calls = k + 1 ∧
      (retry_with_backoff f max_retries d M b).delays.length = k) ∧
    (∀ i : Nat, i < (retry_with_backoff f max_retries d M b).delays.length →
      (retry_with_backoff f max_retries d M b).delays[i]? =
        some (min (d * b ^ i) M)) ∧
    (∀ err : Nat → ε,
      (∀ i, i ≤ max_retries → f i = AttemptOutcome.retryable (err i)) →
      (retry_with_backoff f max_retries d M b).result =
        Except.error (err max_retries) ∧
      (retry_with_backoff f max_retries d M b).calls = max_retries + 1) ∧
    (∀ (j : Nat) (e : ε), j ≤ max_retries →
      (∀ i, i < j → ∃ e2, f i = AttemptOutcome.retryable e2) →
      f j = AttemptOutcome.nonRetryable e →
      (retry_with_backoff f max_retries d M b).result = Except.error e ∧
      (retry_with_backoff f max_retries d M b).calls = j + 1) := by
  refine ⟨?_, ?_, ?_, ?_⟩
  · intro k v hk hretry hok
    obtain ⟨h1, h2, h3⟩ := retryAux_success f M b v k 0 max_retries d
      (le_of_lt hk)
      (fun i hi => by simpa using hretry i hi)
      (by simpa using hok)
    exact ⟨h1, by simpa using h2, h3⟩
  · intro i hi
    have hdl := retryAux_delays f M b max_retries 0 d
    simp only [retry_with_backoff] at hi ⊢
    conv_lhs => rw [hdl]
    rw [List.getElem?_map, List.getElem?_range hi]
    simp [backoffDelay_closed_form d M b hd hb hdM]
  · intro err herr
    obtain ⟨h1, h2, _⟩ := retryAux_exhaust f M b err max_retries 0 d
      (fun i hi => by simpa using herr i hi)
    exact ⟨by simpa using h1, by simpa using h2⟩
  · intro j e hj hretry hnr
    obtain ⟨h1, h2, _⟩ := retryAux_nonretryable f M b e j 0 max_retries d hj
      (fun i hi => by simpa using hretry i hi)
      (by simpa using hnr)
    exact ⟨h1, by simpa using h2⟩

/-- Witness for the amended C3: one retryable failure then success with
`max_retries = 3` gives exactly two calls. -/
theorem retry_with_backoff_contract_witness :
    (retry_with_backoff
      (fun n => if n = 0 then AttemptOutcome.retryable ()
        else AttemptOutcome.ok ())
      3 1 60 2).calls = 1 + 1 :=
  ((retry_with_backoff_contract
    (fun n => if n = 0 then AttemptOutcome.retryable ()
      else AttemptOutcome.ok ())
    3 1 60 2 (by norm_num) (by norm_num) (by norm_num)).1
    1 () (by norm_num)
    (fun i hi => by
      have hi0 : i = 0 := by omega
      subst hi0
      exact ⟨(), rfl⟩)
    rfl).2.1

end Resilience

/-! ### Sample-rate normalization (protocol codec) claims -/

namespace Protocol

/-- C4 counterexample: a non-numeric sample-rate string is normalized to
8000 WITHOUT a warning: `_handle_start` computes
`int(s) if s.isdigit() else 8000` first, so the fallback 8000 then passes
the allowed-rates check and the warning branch never runs
(`exotel_handler.py` lines 127-134). -/
theorem nonnumeric_rate_silent_counterexample :
    normalize_sample_rate "abc" = ⟨8000, false⟩ ∧
    ¬ (normalize_sample_rate "abc").warned = true := by
  constructor <;> decide

/-- C4 (amended): digit strings `"8000"`/`"16000"` pass through
unchanged, `"24000"` becomes 16000, and any other digit string (e.g.
`"11025"`) becomes 8000 with the warning recorded; a non-digit string
becomes 8000 silently (no warning). -/
theorem sample_rate_normalization (s : String) :
    (pyIsDigit s = true →
      ((pyInt s = 8000 → normalize_sample_rate s = ⟨8000, false⟩) ∧
       (pyInt s = 16000 →
         normalize_sample_rate s = ⟨16000, false⟩) ∧
       (pyInt s = 24000 →
         normalize_sample_rate s = ⟨16000, false⟩) ∧
       (pyInt s ∉ [8000, 16000, 24000] →
         normalize_sample_rate s = ⟨8000, true⟩))) ∧
    (pyIsDigit s = false → normalize_sample_rate s = ⟨8000, false⟩) := by
  constructor
  · intro hd
    refine ⟨?_, ?_, ?_, ?_⟩ <;> intro hv <;>
      simp [normalize_sample_rate, hd, hv]
  · intro hd
    simp [normalize_sample_rate, hd]

/-- Witness for the amended C4 at `"11025"` (numeric, out of range:
warns) and `"24000"` (converted to 16000). -/
theorem sample_rate_normalization_witness :
    normalize_sample_rate "11025" = ⟨8000, true⟩ ∧
    normalize_sample_rate "24000" = ⟨16000, false⟩ :=
  ⟨((sample_rate_normalization "11025").1 (by decide)).2.2.2 (by decide),
    ((sample_rate_normalization "24000").1 (by decide)).2.2.1 (by decide)⟩

end Protocol

/-! ### Association-list lemmas (Python-dict facts used below) -/

namespace AList

lemma lookupA_insertA_self {β : Type} (m : List (String × β)) (k : String)
    (v : β) : lookupA (insertA m k v) k = some v := by
  induction m with
  | nil => simp [insertA, lookupA]
  | cons p rest ih =>
    obtain ⟨k1, v1⟩ := p
    by_cases hk : k1 = k
    · simp [insertA, lookupA, hk]
    · simp [insertA, lookupA, hk, ih]

lemma lookupA_eq_none_of_not_mem {β : Type} (m : List (String × β))
    (k : String) (h : k ∉ m.map Prod.fst) : lookupA m k = none := by
  induction m with
  | nil => rfl
  | cons p rest ih =>
    obtain ⟨k1, v1⟩ := p
    simp only [List.map_cons, List.mem_cons] at h
    push_neg at h
    have hk : k1 ≠ k := fun he => h.1 he.symm
    simp [lookupA, hk, ih h.2]

lemma keys_insertA {β : Type} (m : List (String × β)) (k : String) (v : β) :
    (insertA m k v).map Prod.fst =
      if k ∈ m.map Prod.fst then m.map Prod.fst
      else m.map Prod.fst ++ [k] := by
  induction m with
  | nil => simp [insertA]
  | cons p rest ih =>
    obtain ⟨k1, v1⟩ := p
    by_cases hk : k1 = k
    · simp [insertA, hk]
    · have hne : ¬ k = k1 := fun he => hk he.symm
      by_cases hmem : k ∈ rest.map Prod.fst <;>
        simp [insertA, hk, hne, hmem, ih]

lemma keys_insertA_nodup {β : Type} (m : List (String × β)) (k : String)
    (v : β) (h : (m.map Prod.fst).Nodup) :
    ((insertA m k v).map Prod.fst).Nodup := by
  rw [keys_insertA]
  by_cases hmem : k ∈ m.map Prod.fst
  · simpa [hmem] using h
  · simp only [hmem, if_false]
    rw [List.nodup_append]
    exact ⟨h, List.nodup_singleton k, by simpa using hmem⟩

lemma lookupA_eraseA_self {β : Type} (m : List (String × β)) (k : String)
    (h : (m.map Prod.fst).Nodup) : lookupA (eraseA m k) k = none := by
  induction m with
  | nil => rfl
  | cons p rest ih =>
    obtain ⟨k1, v1⟩ := p
    simp only [List.map_cons, List.nodup_cons] at h
    by_cases hk : k1 = k
    · subst hk
      simp only [eraseA, if_pos rfl]
      exact lookupA_eq_none_of_not_mem rest k1 h.1
    · simp [eraseA, lookupA, hk, ih h.2]

end AList

/-! ### Media-event handling claims -/

namespace Protocol

/-- C5 counterexample: the codec does not accept-and-flag an
unknown-stream Media event: `_handle_media` returns `None` for it (the
orchestrator skips a `None` result), so no `rejected: true` flag exists
anywhere (`exotel_handler.py` lines 177-179). -/
theorem media_unknown_stream_not_accepted_counterexample :
    (handle_media [] ⟨"s1", some "dGVzdA=="⟩).1 = none ∧
    ¬ ((handle_media [] ⟨"s1", some "dGVzdA=="⟩).1).isSome = true ∧
    (handle_media
      [("s1", ⟨"s1", "c1", "a1", "f", "t", 8000, "pcm16", 0, false⟩)]
      ⟨"s1", some "dGVzdA=="⟩).1 = none := by
  refine ⟨?_, ?_, ?_⟩ <;> decide

end Protocol

namespace Orchestrator

/-- C5 (amended): a Media event whose streamId has no registered codec
session, or whose session is not started, makes the codec return `None`
(the frame is dropped with a warning, the registry untouched), and the
orchestrator then performs no pipeline-feed call and emits no effect;
being total functions, nothing raises. -/
theorem media_unknown_or_inactive_dropped
    (S : ServerState) (msg : Protocol.MediaMsg)
    (h : AList.lookupA S.handler msg.stream_sid = none ∨
      ∃ st, AList.lookupA S.handler msg.stream_sid = some st ∧
        st.started = false) :
    Protocol.handle_media S.handler msg = (none, S.handler) ∧
    process_media_event S msg = (S, []) := by
  rcases h with hn | ⟨st, hst, hfalse⟩
  · constructor
    · simp [Protocol.handle_media, hn]
    · simp [process_media_event, Protocol.handle_media, hn]
  · constructor
    · simp [Protocol.handle_media, hst, hfalse]
    · simp [process_media_event, Protocol.handle_media, hst, hfalse]

/-- Witness for the amended C5: an empty registry and a valid payload. -/
theorem media_unknown_or_inactive_dropped_witness :
    process_media_event ⟨[], [], Pipeline.PipelineManager.empty⟩
      ⟨"s1", some "dGVzdA=="⟩ = (⟨[], [], Pipeline.PipelineManager.empty⟩, []) :=
  (media_unknown_or_inactive_dropped ⟨[], [], Pipeline.PipelineManager.empty⟩
    ⟨"s1", some "dGVzdA=="⟩ (Or.inl rfl)).2

end Orchestrator

/-! ### Stop-event handling claims -/

namespace Orchestrator

/-- The stop branch on a live session (codec entry for `sid` consistent,
server entry present, `sid` truthy): the pipeline is stopped, both
registry entries are removed, and the disposition pair of effects is
emitted exactly when the joined transcript is non-empty. -/
lemma process_stop_cleanup
    (S : ServerState) (cur : Option String) (sid reason : String)
    (llm : Disposition.LLMOutcome)
    (st0 : Protocol.ExotelConnectionState)
    (hhs : AList.lookupA S.handler sid = some st0)
    (hb : st0.stream_sid = sid)
    (hsid : sid.isEmpty = false)
    (conn : ConnectionInfo)
    (hconn : AList.lookupA S.connections sid = some conn) :
    process_stop_event S cur sid reason llm =
      ({ handler := AList.eraseA
           (AList.insertA S.handler sid { st0 with started := false }) sid,
         connections := AList.eraseA S.connections sid,
         pipelines := Pipeline.stop_pipeline S.pipelines sid },
       if (get_full_transcript conn.callback.transcript_chunks).isEmpty then
          [Effect.stopPipeline sid]
        else
          [Effect.stopPipeline sid,
            Effect.generateDisposition st0.call_sid
              (get_full_transcript conn.callback.transcript_chunks),
            Effect.sendDisposition st0.call_sid
              (Disposition.generate_disposition
                (get_full_transcript conn.callback.transcript_chunks)
                llm).summary]) := by
  simp [process_stop_event, Protocol.handle_stop, Protocol.remove_connection,
    hhs, hb, hsid, hconn]

/-- C6: processing a Stop for a live session tears it down exactly once;
an immediately following second Stop for the same streamId is a complete
no-op: the state is unchanged and no effect (no second `stop_pipeline`,
no disposition generation, no forward) is emitted, and no error is
raised. -/
theorem stop_twice_second_noop
    (S : ServerState) (cur cur' : Option String)
    (sid reason reason' : String) (llm llm' : Disposition.LLMOutcome)
    (hnh : (S.handler.map Prod.fst).Nodup)
    (hnc : (S.connections.map Prod.fst).Nodup)
    (hsid : sid.isEmpty = false)
    (st0 : Protocol.ExotelConnectionState)
    (hhs : AList.lookupA S.handler sid = some st0)
    (hb : st0.stream_sid = sid)
    (conn : ConnectionInfo)
    (hconn : AList.lookupA S.connections sid = some conn)
    (hcur : cur' = none ∨ cur' = some sid) :
    process_stop_event (process_stop_event S cur sid reason llm).1
      cur' sid reason' llm' =
    ((process_stop_event S cur sid reason llm).1, []) := by
  have h1 := process_stop_cleanup S cur sid reason llm st0 hhs hb hsid conn hconn
  rw [h1]
  have hlook1 : AList.lookupA (AList.eraseA
      (AList.insertA S.handler sid { st0 with started := false }) sid) sid
      = none :=
    AList.lookupA_eraseA_self _ _ (AList.keys_insertA_nodup _ _ _ hnh)
  have hlook2 : AList.lookupA (AList.eraseA S.connections sid) sid = none :=
    AList.lookupA_eraseA_self _ _ hnc
  rcases hcur with rfl | rfl
  · simp [process_stop_event, Protocol.handle_stop, hlook1]
  · simp [process_stop_event, Protocol.handle_stop, hlook1, hlook2, hsid]

/-- Witness for C6 on a one-session server: the second Stop for `"s1"` is
a no-op. -/
theorem stop_twice_second_noop_witness :
    process_stop_event
      (process_stop_event
        ⟨[("s1", ⟨"s1", "c1", "a1", "f", "t", 8000, "pcm16", 3, true⟩)],
         [("s1", ⟨⟨"s1", "c1", "a1", "f", "t", 8000, "pcm16", 3, true⟩,
            ⟨"s1", "c1", "a1", ["hello there how are you"], 1⟩, "corr"⟩)],
         ⟨["s1"], ["s1"], [("s1", true)]⟩⟩
        none "s1" "callended" Disposition.LLMOutcome.raisedError).1
      (some "s1") "s1" "callended" Disposition.LLMOutcome.raisedError =
    ((process_stop_event
        ⟨[("s1", ⟨"s1", "c1", "a1", "f", "t", 8000, "pcm16", 3, true⟩)],
         [("s1", ⟨⟨"s1", "c1", "a1", "f", "t", 8000, "pcm16", 3, true⟩,
            ⟨"s1", "c1", "a1", ["hello there how are you"], 1⟩, "corr"⟩)],
         ⟨["s1"], ["s1"], [("s1", true)]⟩⟩
        none "s1" "callended" Disposition.LLMOutcome.raisedError).1, []) :=
  stop_twice_second_noop
    ⟨[("s1", ⟨"s1", "c1", "a1", "f", "t", 8000, "pcm16", 3, true⟩)],
     [("s1", ⟨⟨"s1", "c1", "a1", "f", "t", 8000, "pcm16", 3, true⟩,
        ⟨"s1", "c1", "a1", ["hello there how are you"], 1⟩, "corr"⟩)],
     ⟨["s1"], ["s1"], [("s1", true)]⟩⟩
    none (some "s1") "s1" "callended" "callended"
    Disposition.LLMOutcome.raisedError Disposition.LLMOutcome.raisedError
    (by decide) (by decide) (by decide)
    ⟨"s1", "c1", "a1", "f", "t", 8000, "pcm16", 3, true⟩ (by decide) rfl
    ⟨⟨"s1", "c1", "a1", "f", "t", 8000, "pcm16", 3, true⟩,
      ⟨"s1", "c1", "a1", ["hello there how are you"], 1⟩, "corr"⟩ (by decide)
    (Or.inr rfl)

end Orchestrator

/-! ### Duplicate-session-creation claims -/

namespace Protocol

/-- C7 counterexample: a second Start for an already-registered streamId
does NOT keep the existing session state: `_handle_start` unconditionally
builds a fresh state and stores it (`self.connections[stream_sid] =
state`, `exotel_handler.py` line 154), resetting `seq` to 0 and taking
the new event's fields. -/
theorem duplicate_start_overwrites_state_counterexample :
    AList.lookupA
      (handle_start
        [("s1", ⟨"s1", "c1", "a1", "f", "t", 8000, "pcm16", 5, true⟩)]
        ⟨"s1", "c2", "a2", "f2", "t2", some "16000", none⟩).2 "s1" =
      some ⟨"s1", "c2", "a2", "f2", "t2", 16000, "pcm16", 0, true⟩ ∧
    ¬ AList.lookupA
      (handle_start
        [("s1", ⟨"s1", "c1", "a1", "f", "t", 8000, "pcm16", 5, true⟩)]
        ⟨"s1", "c2", "a2", "f2", "t2", some "16000", none⟩).2 "s1" =
      some ⟨"s1", "c1", "a1", "f", "t", 8000, "pcm16", 5, true⟩ := by
  constructor <;> decide

end Protocol

namespace Orchestrator

/-- C7 (amended): at most one session per streamId is kept (the
registries are Python dicts: insertion preserves key uniqueness), and a
second `create_pipeline` for an already-active streamId is a no-op with a
warning that keeps the pipeline unchanged (no create effect); but the
protocol handler's stored connection state is NOT kept: a duplicate Start
replaces it with a fresh state built from the new event. -/
theorem duplicate_start_contract :
    (∀ (pm : Pipeline.PipelineManager) (sid : String),
      pm.pipelines.contains sid = true →
      Pipeline.create_pipeline pm sid = ⟨pm, false⟩) ∧
    (∀ (S : ServerState) (msg : Protocol.StartMsg) (corr : String),
      S.pipelines.pipelines.contains msg.stream_sid = true →
      (process_start_event S msg corr).1.pipelines = S.pipelines ∧
      (process_start_event S msg corr).2 = []) ∧
    (∀ (m : Protocol.HandlerConns) (msg : Protocol.StartMsg),
      (m.map Prod.fst).Nodup →
      (((Protocol.handle_start m msg).2).map Prod.fst).Nodup) ∧
    (∀ (m : Protocol.HandlerConns) (msg : Protocol.StartMsg),
      AList.lookupA (Protocol.handle_start m msg).2 msg.stream_sid =
        some (Protocol.handle_start m msg).1.state) := by
  refine ⟨?_, ?_, ?_, ?_⟩
  · intro pm sid h
    have hmem : sid ∈ pm.pipelines := by simpa using h
    simp [Pipeline.create_pipeline, hmem]
  · intro S msg corr h
    have hmem : msg.stream_sid ∈ S.pipelines.pipelines := by simpa using h
    constructor <;>
      simp [process_start_event, Protocol.handle_start,
        Pipeline.create_pipeline, hmem]
  · intro m msg h
    exact AList.keys_insertA_nodup m msg.stream_sid _ h
  · intro m msg
    exact AList.lookupA_insertA_self m msg.stream_sid _

/-- Witness for the amended C7: a duplicate create for `"s1"` returns the
manager unchanged with no create. -/
theorem duplicate_start_contract_witness :
    Pipeline.create_pipeline ⟨["s1"], ["s1"], [("s1", true)]⟩ "s1" =
      ⟨⟨["s1"], ["s1"], [("s1", true)]⟩, false⟩ :=
  duplicate_start_contract.1 ⟨["s1"], ["s1"], [("s1", true)]⟩ "s1" (by decide)

end Orchestrator

/-! ### Disposition-at-stop claims -/

namespace Orchestrator

/-- C8 counterexample: a non-empty transcript log whose single entry is
the empty string joins to `""`, and `if full_transcript:` then skips
disposition generation entirely (`websocket_server.py` line 254), so a
non-empty log does not guarantee a generation attempt. -/
theorem nonempty_log_blank_join_skips_disposition_counterexample :
    ([""] : List String) ≠ [] ∧
    (process_stop_event
      ⟨[("s1", ⟨"s1", "c1", "a1", "f", "t", 8000, "pcm16", 0, true⟩)],
       [("s1", ⟨⟨"s1", "c1", "a1", "f", "t", 8000, "pcm16", 0, true⟩,
          ⟨"s1", "c1", "a1", [""], 0⟩, "corr"⟩)],
       ⟨["s1"], ["s1"], [("s1", true)]⟩⟩
      none "s1" "callended" Disposition.LLMOutcome.raisedError).2 =
      [Effect.stopPipeline "s1"] := by
  constructor
  · decide
  · decide

/-- C8 (amended): at session stop of a live session, the transcript log
is joined space-separated and disposition generation plus a forward
happen exactly when the joined string is non-empty (so an empty log, in
particular, attempts no generation); any failure inside generation (a
provider error or an unparseable response) yields the fixed low-confidence
review-manually fallback summary instead of leaving the call
unclassified. -/
theorem stop_disposition_contract :
    (∀ (S : ServerState) (cur : Option String) (sid reason : String)
        (llm : Disposition.LLMOutcome)
        (st0 : Protocol.ExotelConnectionState) (conn : ConnectionInfo),
      AList.lookupA S.handler sid = some st0 → st0.stream_sid = sid →
      sid.isEmpty = false → AList.lookupA S.connections sid = some conn →
      (process_stop_event S cur sid reason llm).2 =
        (if (get_full_transcript conn.callback.transcript_chunks).isEmpty then
          [Effect.stopPipeline sid]
        else
          [Effect.stopPipeline sid,
            Effect.generateDisposition st0.call_sid
              (get_full_transcript conn.callback.transcript_chunks),
            Effect.sendDisposition st0.call_sid
              (Disposition.generate_disposition
                (get_full_transcript conn.callback.transcript_chunks)
                llm).summary])) ∧
    (∀ (t : String) (llm : Disposition.LLMOutcome),
      llm = Disposition.LLMOutcome.raisedError ∨
        llm = Disposition.LLMOutcome.invalidJson →
      (Disposition.generate_disposition t llm).summary =
        Disposition.fallback_summary) ∧
    get_full_transcript [] = "" := by
  refine ⟨?_, ?_, rfl⟩
  · intro S cur sid reason llm st0 conn hhs hb hsid hconn
    rw [process_stop_cleanup S cur sid reason llm st0 hhs hb hsid conn hconn]
  · intro t llm h
    rcases h with rfl | rfl <;>
      · simp only [Disposition.generate_disposition]
        split <;> rfl

/-- Witness for the amended C8: a provider failure on a real transcript
falls back to the fixed summary. -/
theorem stop_disposition_contract_witness :
    (Disposition.generate_disposition
      "hello there I want to block my credit card"
      Disposition.LLMOutcome.raisedError).summary =
      Disposition.fallback_summary :=
  stop_disposition_contract.2.1 "hello there I want to block my credit card"
    Disposition.LLMOutcome.raisedError (Or.inl rfl)

end Orchestrator

/-! ### Intent-detection claims -/

namespace Intent

/-- C9: `detect_intent` is total: for every text and provider outcome the
confidence lies in `[0, 1]`, and a provider error or an unparseable
(non-JSON) response yields intent `"unknown"` with confidence 0 instead
of propagating the exception. -/
theorem detect_intent_total_and_clamped :
    (∀ (text : String) (llm : IntentLLMOutcome),
      0 ≤ (detect_intent text llm).confidence ∧
      (detect_intent text llm).confidence ≤ 1) ∧
    (∀ (text : String) (llm : IntentLLMOutcome),
      llm = IntentLLMOutcome.raisedError ∨
        llm = IntentLLMOutcome.invalidJson →
      detect_intent text llm = ⟨"unknown", 0⟩) := by
  constructor
  · intro text llm
    cases llm with
    | raisedError =>
      unfold detect_intent
      split <;> norm_num
    | invalidJson =>
      unfold detect_intent
      split <;> norm_num
    | parsed r =>
      unfold detect_intent
      split
      · constructor <;> norm_num
      · constructor
        · exact le_max_left 0 _
        · exact max_le (by norm_num) (min_le_left 1 _)
  · intro text llm h
    rcases h with rfl | rfl <;>
      · unfold detect_intent
        split <;> rfl

/-- Witness for C9: a provider error on a concrete text gives the unknown
sentinel, with confidence 0 in range. -/
theorem detect_intent_total_and_clamped_witness :
    detect_intent "hello can you help me" IntentLLMOutcome.raisedError =
      ⟨"unknown", 0⟩ ∧
    0 ≤ (detect_intent "hello can you help me"
      IntentLLMOutcome.raisedError).confidence :=
  ⟨detect_intent_total_and_clamped.2 "hello can you help me"
      IntentLLMOutcome.raisedError (Or.inl rfl),
    (detect_intent_total_and_clamped.1 "hello can you help me"
      IntentLLMOutcome.raisedError).1⟩

end Intent

/-! ### Short-transcript disposition claims -/

namespace Orchestrator

/-- C10: a transcript whose stripped length is under 10 characters (the
empty transcript included) makes `generate_disposition` return the fixed
fallback summary (one `general_inquiry` recommendation with score 0.1 and
confidence 0.1) without invoking the LLM provider at all; consequently a
live session stopping with such a short, non-empty joined transcript
still emits a disposition forward carrying the fallback summary. -/
theorem short_transcript_fallback_no_llm :
    (∀ (t : String) (llm : Disposition.LLMOutcome), (Py.pyStrip t).length < 10 →
      Disposition.generate_disposition t llm =
        ⟨Disposition.fallback_summary, false⟩) ∧
    Disposition.fallback_summary.dispositions =
      [⟨"general_inquiry", 1/10, none⟩] ∧
    Disposition.fallback_summary.confidence = 1/10 ∧
    (∀ (S : ServerState) (cur : Option String) (sid reason : String)
        (llm : Disposition.LLMOutcome)
        (st0 : Protocol.ExotelConnectionState) (conn : ConnectionInfo),
      AList.lookupA S.handler sid = some st0 → st0.stream_sid = sid →
      sid.isEmpty = false → AList.lookupA S.connections sid = some conn →
      (get_full_transcript conn.callback.transcript_chunks).isEmpty = false →
      (Py.pyStrip (get_full_transcript conn.callback.transcript_chunks)).length < 10 →
      Effect.sendDisposition st0.call_sid Disposition.fallback_summary ∈
        (process_stop_event S cur sid reason llm).2) := by
  have hshort : ∀ (t : String) (llm : Disposition.LLMOutcome),
      (Py.pyStrip t).length < 10 →
      Disposition.generate_disposition t llm =
        ⟨Disposition.fallback_summary, false⟩ := by
    intro t llm h
    simp [Disposition.generate_disposition, h]
  refine ⟨hshort, rfl, rfl, ?_⟩
  intro S cur sid reason llm st0 conn hhs hb hsid hconn hne hlen
  rw [process_stop_cleanup S cur sid reason llm st0 hhs hb hsid conn hconn]
  rw [if_neg (by simp [hne])]
  rw [hshort _ llm hlen]
  simp

/-- Witness for C10: the two-character transcript `"hi"` with a provider
outcome available still short-circuits to the fallback without invoking
the provider. -/
theorem short_transcript_fallback_no_llm_witness :
    Disposition.generate_disposition "hi"
      (Disposition.LLMOutcome.parsed ⟨some "issue", none, none, [], some 1⟩) =
      ⟨Disposition.fallback_summary, false⟩ :=
  short_transcript_fallback_no_llm.1 "hi"
    (Disposition.LLMOutcome.parsed ⟨some "issue", none, none, [], some 1⟩)
    (by decide)

end Orchestrator
